import Mathlib

/-!
Verification development for the competitor-tracker scraper
(`src/scraper.py`).  The HTTP fetch, HTML parsing and CSS selection are
external capabilities; they are modelled as an oracle that, per
competitor, either fails (any exception raised during fetch, parse or
selection) or yields the ordered list of candidate elements matched by
the title selector.  Everything downstream of that oracle is embedded
directly from the source.  The Python string primitives the scraper
uses (split, strip, startswith, join) are given explicit structural
definitions so that all functions evaluate by kernel reduction.
-/

/-- Python `str.split(sep)` on character lists: splits at every
occurrence of `sep`, keeping empty pieces; the empty string yields one
empty piece. -/
def splitChars (sep : Char) : List Char → List (List Char)
  | [] => [[]]
  | c :: cs =>
    if c = sep then [] :: splitChars sep cs
    else
      match splitChars sep cs with
      | [] => [[c]]
      | r :: rs => (c :: r) :: rs

/-- Python `str.split(sep)` for a one-character separator. -/
def pySplit (sep : Char) (s : String) : List String :=
  (splitChars sep s.data).map (fun cs => { data := cs })

/-- Python `sep.join(xs)`. -/
def pyJoin (sep : String) : List String → String
  | [] => ""
  | [x] => x
  | x :: y :: xs => x ++ sep ++ pyJoin sep (y :: xs)

/-- Boolean test that the first character list begins with the second. -/
def beginsWithChars : List Char → List Char → Bool
  | _, [] => true
  | [], _ :: _ => false
  | a :: as, b :: bs => a == b && beginsWithChars as bs

/-- Python `s.startswith(pre)`. -/
def pyStartsWith (s pre : String) : Bool :=
  beginsWithChars s.data pre.data

/-- Python `str.strip()`: drop whitespace from both ends. -/
def pyStrip (s : String) : String :=
  { data := ((s.data.dropWhile Char.isWhitespace).reverse.dropWhile
      Char.isWhitespace).reverse }

/-- A selected HTML element: its visible text and an optional href
attribute, the two operations the scraper uses on elements. -/
structure Element where
  text : String
  href : Option String
deriving DecidableEq, Repr

/-- The article record built in `scrape_competitor`. -/
structure Article where
  title : String
  url : String
  source : String
  scraped_at : String
deriving DecidableEq, Repr

/-- Selector set of one competitor (the `selectors` config entry). -/
structure Selectors where
  title : String
  date : String
  summary : String
deriving DecidableEq, Repr

/-- Per-competitor configuration entry. -/
structure CompetitorConfig where
  blog_url : String
  selectors : Selectors
deriving DecidableEq, Repr

/-- The configuration object: ordered competitor mapping plus global
settings, as in `config.json` and `get_default_config`. -/
structure Config where
  competitors : List (String × CompetitorConfig)
  max_articles : Nat
  delay_between_requests : Nat
deriving DecidableEq, Repr

/-- Default configuration returned by
`CompetitorScraper.get_default_config`. -/
def get_default_config : Config :=
  { competitors :=
      [ ("OpenAI",
          { blog_url := "https://openai.com/blog"
            selectors :=
              { title := "h3 a", date := ".published-date", summary := ".excerpt" } }),
        ("Google AI",
          { blog_url := "https://ai.googleblog.com/"
            selectors :=
              { title := ".post-title a", date := ".published", summary := ".post-body" } }) ]
    max_articles := 5
    delay_between_requests := 2 }

/-- Model of `CompetitorScraper.load_config`.  The input is the outcome
of reading and JSON-decoding the config file: `none` when the file is
missing (FileNotFoundError, the only exception caught), otherwise the
result of `json.load`, either a decoded `Config` or a decode error that
the function does not handle and therefore returns as an error. -/
def load_config (file : Option (Except String Config)) : Except String Config :=
  match file with
  | none => Except.ok get_default_config
  | some r => r

/-- Builds one article from a candidate element, as the loop body of
`scrape_competitor` does: title is the stripped text, url is the href
attribute defaulting to the empty string, then made absolute by
concatenating the first three slash-separated segments of the blog url
whenever it is non-empty and does not start with http. -/
def extractArticle (name blog_url ts : String) (e : Element) : Article :=
  let raw := e.href.getD ""
  let url :=
    if raw ≠ "" ∧ ¬ (pyStartsWith raw "http" = true) then
      pyJoin "/" ((pySplit '/' blog_url).take 3) ++ raw
    else raw
  { title := pyStrip e.text, url := url, source := name, scraped_at := ts }

/-- One competitor scrape (`CompetitorScraper.scrape_competitor`): on any
failure of the fetch/parse/select oracle the broad except clause returns
the empty list; on success the first `max_articles` candidate elements
are turned into articles in document order. -/
def scrape_competitor (name : String) (cfg : CompetitorConfig)
    (max_articles : Nat) (ts : String)
    (fetched : Except String (List Element)) : List Article :=
  match fetched with
  | Except.error _ => []
  | Except.ok elems => (elems.take max_articles).map (extractArticle name cfg.blog_url ts)

/-- Aggregation over all configured competitors
(`CompetitorScraper.scrape_all_competitors`): the per-competitor article
lists are appended in competitor iteration order. -/
def scrape_all_competitors (competitors : List (String × CompetitorConfig))
    (max_articles : Nat) (ts : String)
    (oracle : String → Except String (List Element)) : List Article :=
  competitors.foldl
    (fun acc p => acc ++ scrape_competitor p.1 p.2 max_articles ts (oracle p.1)) []

/-- One step of the grouping loop in `generate_report`: Python dict
insertion keeps the first-encounter key order, and appending to an
existing entry keeps per-source article order. -/
def insertArticle (acc : List (String × List Article)) (a : Article) :
    List (String × List Article) :=
  if acc.any (fun p => p.1 = a.source) then
    acc.map (fun p => if p.1 = a.source then (p.1, p.2 ++ [a]) else p)
  else
    acc ++ [(a.source, [a])]

/-- The `by_source` grouping built by `generate_report`. -/
def groupBySource (articles : List Article) : List (String × List Article) :=
  articles.foldl insertArticle []

/-- The fixed report header with date and article count, the first
f-string of `generate_report`. -/
def reportHeader (today : String) (count : Nat) : String :=
  "# AI Competitive Intelligence Report\n**Date**: " ++ today ++
    "\n**Articles Found**: " ++ toString count ++
    "\n\n## Summary\nThis report contains the latest updates from key AI companies and competitors.\n\n"

/-- The lines appended for one article inside its source section. -/
def articleText (a : Article) : String :=
  "### " ++ a.title ++ "\n" ++
    (if a.url ≠ "" then "**Link**: [" ++ a.url ++ "](" ++ a.url ++ ")\n" else "") ++
    "**Scraped**: " ++ a.scraped_at ++ "\n\n"

/-- The markdown section appended for one source group. -/
def sectionText (p : String × List Article) : String :=
  "## " ++ p.1 ++ " (" ++ toString p.2.length ++ " articles)\n\n" ++
    String.join (p.2.map articleText)

/-- `CompetitorScraper.generate_report`: header followed by one section
per source, in grouping order.  The report date, taken from the clock in
the source, is the `today` parameter. -/
def generate_report (today : String) (articles : List Article) : String :=
  reportHeader today articles.length ++
    String.join ((groupBySource articles).map sectionText)

/-- `CompetitorScraper.save_report` as an effect description: the dated
path written and the content written there. -/
def save_report (today content : String) : String × String :=
  ("reports/ai_competitive_report_" ++ today ++ ".md", content)

/-- Outcome summary printed by `run_daily_scrape`. -/
inductive RunOutcome where
  | saved (filename : String) (total : Nat)
  | noArticles
deriving DecidableEq, Repr

/-- Effects of one run: files written and the reported outcome. -/
structure RunResult where
  writes : List (String × String)
  outcome : RunOutcome
deriving DecidableEq, Repr

/-- `CompetitorScraper.run_daily_scrape`: aggregate, then render and
persist only when the article list is non-empty, otherwise report that
no articles were found and write nothing. -/
def run_daily_scrape (today ts : String) (cfg : Config)
    (oracle : String → Except String (List Element)) : RunResult :=
  let articles := scrape_all_competitors cfg.competitors cfg.max_articles ts oracle
  if articles.isEmpty then
    { writes := [], outcome := RunOutcome.noArticles }
  else
    let w := save_report today (generate_report today articles)
    { writes := [w], outcome := RunOutcome.saved w.1 articles.length }

/-- Sample article with source X, used in concrete grouping scenarios. -/
def sampleX1 : Article :=
  { title := "first", url := "https://x.example/1", source := "X", scraped_at := "t1" }

/-- Second sample article with source X. -/
def sampleX2 : Article :=
  { title := "third", url := "", source := "X", scraped_at := "t3" }

/-- Sample article with source Y. -/
def sampleY : Article :=
  { title := "second", url := "https://y.example/2", source := "Y", scraped_at := "t2" }

/-- Folding list append over a list is concatenation of the images. -/
lemma foldl_append_join {α β : Type} (f : α → List β) :
    ∀ (l : List α) (init : List β),
      l.foldl (fun acc x => acc ++ f x) init = init ++ (l.map f).flatten
  | [], init => by simp
  | x :: t, init => by
    simp [List.foldl_cons, foldl_append_join f t, List.append_assoc]

/-- C1: aggregation is the in-order concatenation of per-competitor
results, and a competitor whose fetch, parse or selection failed
contributes the empty list, so one failure never disturbs the other
competitors and nothing escapes the aggregation. -/
theorem aggregation_isolation (competitors : List (String × CompetitorConfig))
    (m : Nat) (ts : String) (oracle : String → Except String (List Element)) :
    scrape_all_competitors competitors m ts oracle =
      (competitors.map (fun p => scrape_competitor p.1 p.2 m ts (oracle p.1))).flatten ∧
    ∀ (name : String) (cfg : CompetitorConfig) (err : String),
      scrape_competitor name cfg m ts (Except.error err) = [] := by
  constructor
  · unfold scrape_all_competitors
    simpa using
      foldl_append_join (fun p => scrape_competitor p.1 p.2 m ts (oracle p.1)) competitors []
  · intro name cfg err
    rfl

/-- C2: a successful competitor scrape yields at most `max_articles`
articles, namely exactly the first `max_articles` candidate elements in
document order. -/
theorem extraction_truncation (name : String) (cfg : CompetitorConfig)
    (m : Nat) (ts : String) (elems : List Element) :
    (scrape_competitor name cfg m ts (Except.ok elems)).length ≤ m ∧
    scrape_competitor name cfg m ts (Except.ok elems) =
      (elems.take m).map (extractArticle name cfg.blog_url ts) := by
  refine ⟨?_, rfl⟩
  simp [scrape_competitor, List.length_take]

/-- URL normalization as the specification words it: empty stays empty,
an http-prefixed value passes through unchanged, anything else is the
origin of the listing URL (first three slash-separated segments)
concatenated with the raw value. -/
def urlNormSpec (listingUrl raw : String) : String :=
  if raw = "" then ""
  else if pyStartsWith raw "http" then raw
  else pyJoin "/" ((pySplit '/' listingUrl).take 3) ++ raw

/-- C3: the url stored on every extracted article coincides with the
specified normalization, and the concrete example resolves as stated. -/
theorem url_normalization (name blog_url ts : String) (e : Element) :
    (extractArticle name blog_url ts e).url = urlNormSpec blog_url (e.href.getD "") ∧
    extractArticle "A" "https://example.com/blog/index" "2026-10-12T00:00:00"
        { text := "Post 1", href := some "/posts/1" } =
      { title := "Post 1", url := "https://example.com/posts/1", source := "A",
        scraped_at := "2026-10-12T00:00:00" } := by
  constructor
  · unfold extractArticle urlNormSpec
    by_cases h0 : e.href.getD "" = ""
    · simp [h0]
    · by_cases h1 : pyStartsWith (e.href.getD "") "http" = true
      · simp [h0, h1]
      · simp [h0, h1]
  · decide

/-- C6: report rendering is deterministic, a pure function of the
article sequence and the report date. -/
theorem render_deterministic (d1 d2 : String) (as1 as2 : List Article)
    (hd : d1 = d2) (ha : as1 = as2) :
    generate_report d1 as1 = generate_report d2 as2 := by
  rw [hd, ha]

/-- Witness for C6 at a concrete date and article list. -/
theorem render_deterministic_witness :
    generate_report "2026-10-12" [sampleX1] = generate_report "2026-10-12" [sampleX1] :=
  render_deterministic "2026-10-12" "2026-10-12" [sampleX1] [sampleX1] rfl rfl

/-- C7: every extracted title is the stripped element text, an element
without an href attribute yields the empty url, and whitespace-only text
yields the empty title without any failure. -/
theorem extraction_title_defaults (name blog_url ts txt : String) (e : Element) :
    (extractArticle name blog_url ts e).title = pyStrip e.text ∧
    (extractArticle name blog_url ts { text := txt, href := none }).url = "" ∧
    (extractArticle name blog_url ts { text := "   ", href := e.href }).title = "" := by
  refine ⟨rfl, by simp [extractArticle], ?_⟩
  show pyStrip "   " = ""
  decide

/-- C8: a missing config file falls back to the built-in default, whose
competitors are OpenAI and Google AI with max articles 5 and delay 2,
while a JSON decode error is not handled and propagates. -/
theorem config_load_fallback :
    load_config none = Except.ok get_default_config ∧
    get_default_config.competitors.map Prod.fst = ["OpenAI", "Google AI"] ∧
    get_default_config.max_articles = 5 ∧
    get_default_config.delay_between_requests = 2 ∧
    ∀ e : String, load_config (some (Except.error e)) = Except.error e := by
  exact ⟨rfl, by decide, rfl, rfl, fun e => rfl⟩

/-- C10: rendering the empty article sequence succeeds and returns just
the header with a zero count and no source sections, and that output is
non-empty. -/
theorem render_empty_header (today : String) :
    generate_report today [] = reportHeader today 0 ∧
    groupBySource [] = [] ∧
    0 < (generate_report today []).length := by
  have h : generate_report today [] = reportHeader today 0 := by
    simp [generate_report, groupBySource, String.join]
  refine ⟨h, rfl, ?_⟩
  rw [h]
  unfold reportHeader
  have h1 : 0 < ("# AI Competitive Intelligence Report\n**Date**: ").length := by decide
  simp [String.length_append]
  omega

/-- The source names in first-encounter order, the key order a Python
dict acquires while grouping; this is the order the spec prescribes for
report sections. -/
def sourcesInOrder (articles : List Article) : List String :=
  articles.foldl (fun ks a => if a.source ∈ ks then ks else ks ++ [a.source]) []

/-- Membership test used by the grouping step agrees with membership in
the key list. -/
lemma mem_keys_iff_any (acc : List (String × List Article)) (s : String) :
    (acc.any fun p => decide (p.1 = s)) = true ↔ s ∈ acc.map Prod.fst := by
  simp [List.any_eq_true, List.mem_map]

/-- Inserting an article extends the key list exactly when its source is
new, and then at the end. -/
lemma insertArticle_keys (acc : List (String × List Article)) (a : Article) :
    (insertArticle acc a).map Prod.fst =
      if a.source ∈ acc.map Prod.fst then acc.map Prod.fst
      else acc.map Prod.fst ++ [a.source] := by
  unfold insertArticle
  split
  case isTrue h =>
    rw [if_pos ((mem_keys_iff_any acc a.source).mp h), List.map_map]
    refine List.map_congr_left ?_
    intro p hp
    by_cases hps : p.1 = a.source <;> simp [hps]
  case isFalse h =>
    rw [if_neg (fun hm => h ((mem_keys_iff_any acc a.source).mpr hm))]
    simp

/-- Inserting an article preserves distinctness of the group keys. -/
lemma insertArticle_nodup (acc : List (String × List Article)) (a : Article)
    (h : (acc.map Prod.fst).Nodup) :
    ((insertArticle acc a).map Prod.fst).Nodup := by
  rw [insertArticle_keys]
  by_cases hm : a.source ∈ acc.map Prod.fst
  · simpa [hm] using h
  · simp [hm, h, List.nodup_append]

/-- The keys after one insertion are the old keys plus the new source. -/
lemma insertArticle_mem_keys (acc : List (String × List Article)) (a : Article)
    (s : String) :
    s ∈ (insertArticle acc a).map Prod.fst ↔ s ∈ acc.map Prod.fst ∨ s = a.source := by
  rw [insertArticle_keys]
  by_cases hm : a.source ∈ acc.map Prod.fst
  · simp only [hm, if_true]
    constructor
    · exact Or.inl
    · rintro (h | rfl)
      · exact h
      · exact hm
  · simp [hm]

/-- Inserting an article keeps every group equal to the filter of the
processed input by its key. -/
lemma insertArticle_content (acc : List (String × List Article)) (a : Article)
    (pre : List Article)
    (hany : ∀ p ∈ acc, p.2 = pre.filter (fun x => x.source = p.1))
    (hcov : ∀ x ∈ pre, x.source ∈ acc.map Prod.fst) :
    ∀ p ∈ insertArticle acc a,
      p.2 = (pre ++ [a]).filter (fun x => x.source = p.1) := by
  intro p hp
  rw [List.filter_append]
  unfold insertArticle at hp
  split at hp
  case isTrue h =>
    obtain ⟨q, hq, hqe⟩ := List.mem_map.mp hp
    by_cases hqs : q.1 = a.source
    · rw [if_pos hqs] at hqe
      rw [← hqe]
      simp only [hany q hq, hqs]
      simp
    · rw [if_neg hqs] at hqe
      rw [← hqe]
      simp only [hany q hq]
      have : (decide (a.source = q.1)) = false := by
        simp
        exact fun he => hqs he.symm
      simp [this]
  case isFalse h =>
    rcases List.mem_append.mp hp with hp' | hp'
    · have hps : p.1 ≠ a.source := by
        intro he
        exact h ((mem_keys_iff_any acc a.source).mpr
          (List.mem_map.mpr ⟨p, hp', he⟩))
      rw [hany p hp']
      have : (decide (a.source = p.1)) = false := by
        simp
        exact fun he => hps he.symm
      simp [this]
    · have hpe : p = (a.source, [a]) := by simpa using hp'
      subst hpe
      have hnil : pre.filter (fun x => decide (x.source = a.source)) = [] := by
        rw [List.filter_eq_nil_iff]
        intro x hx
        simp only [decide_eq_true_eq]
        intro he
        exact h ((mem_keys_iff_any acc a.source).mpr (he ▸ hcov x hx))
      simp [hnil]

/-- Invariant of the grouping fold: distinct keys, each group is the
filter of the input seen so far by its key, and every seen source has a
group. -/
lemma groupAux_spec :
    ∀ (rest : List Article) (acc : List (String × List Article)) (pre : List Article),
      (acc.map Prod.fst).Nodup →
      (∀ p ∈ acc, p.2 = pre.filter (fun x => x.source = p.1)) →
      (∀ x ∈ pre, x.source ∈ acc.map Prod.fst) →
      ((rest.foldl insertArticle acc).map Prod.fst).Nodup ∧
      (∀ p ∈ rest.foldl insertArticle acc,
        p.2 = (pre ++ rest).filter (fun x => x.source = p.1)) ∧
      (∀ x ∈ pre ++ rest, x.source ∈ (rest.foldl insertArticle acc).map Prod.fst)
  | [], acc, pre, h1, h2, h3 => by
    simp only [List.foldl_nil, List.append_nil]
    exact ⟨h1, h2, h3⟩
  | a :: rest, acc, pre, h1, h2, h3 => by
    have step := groupAux_spec rest (insertArticle acc a) (pre ++ [a])
      (insertArticle_nodup acc a h1)
      (insertArticle_content acc a pre h2 h3)
      (by
        intro x hx
        rcases List.mem_append.mp hx with hx' | hx'
        · exact (insertArticle_mem_keys acc a _).mpr (Or.inl (h3 x hx'))
        · rw [List.mem_singleton.mp hx']
          exact (insertArticle_mem_keys acc a _).mpr (Or.inr rfl))
    simpa only [List.foldl_cons, List.append_assoc, List.singleton_append] using step

/-- The grouping of `generate_report`: distinct keys, groups are filters
of the input, and every source of the input owns a group. -/
lemma groupBySource_spec (articles : List Article) :
    ((groupBySource articles).map Prod.fst).Nodup ∧
    (∀ p ∈ groupBySource articles, p.2 = articles.filter (fun x => x.source = p.1)) ∧
    (∀ x ∈ articles, x.source ∈ (groupBySource articles).map Prod.fst) := by
  have h := groupAux_spec articles [] []
    (by simp) (by intro p hp; simp at hp) (by intro x hx; simp at hx)
  simpa using h

/-- The key order of the grouping fold is the first-encounter order of
the sources. -/
lemma groupAux_keys :
    ∀ (rest : List Article) (acc : List (String × List Article)),
      (rest.foldl insertArticle acc).map Prod.fst =
        rest.foldl (fun ks a => if a.source ∈ ks then ks else ks ++ [a.source])
          (acc.map Prod.fst)
  | [], acc => rfl
  | a :: rest, acc => by
    rw [List.foldl_cons, List.foldl_cons, groupAux_keys rest (insertArticle acc a),
      insertArticle_keys]

/-- Group keys are exactly the sources in first-encounter order. -/
lemma groupBySource_keys (articles : List Article) :
    (groupBySource articles).map Prod.fst = sourcesInOrder articles :=
  groupAux_keys articles []

/-- Appending an article to its unique existing group grows the total
article count by exactly one. -/
lemma mapUpd_sum (a : Article) :
    ∀ (acc : List (String × List Article)),
      (acc.map Prod.fst).Nodup →
      (acc.any fun p => decide (p.1 = a.source)) = true →
      ((acc.map (fun p => if p.1 = a.source then (p.1, p.2 ++ [a]) else p)).map
          (fun p => p.2.length)).sum =
        (acc.map (fun p => p.2.length)).sum + 1
  | [], _, hany => by simp at hany
  | q :: t, hnd, hany => by
    have hnd' := List.nodup_cons.mp (by simpa only [List.map_cons] using hnd)
    by_cases hq : q.1 = a.source
    · have hnot : a.source ∉ t.map Prod.fst := hq ▸ hnd'.1
      have hmap : t.map (fun p => if p.1 = a.source then (p.1, p.2 ++ [a]) else p) =
          t.map id := by
        refine List.map_congr_left ?_
        intro p hp
        have hps : p.1 ≠ a.source := by
          intro he
          exact hnot (he ▸ List.mem_map_of_mem Prod.fst hp)
        simp [hps]
      have hhead : (if q.1 = a.source then (q.1, q.2 ++ [a]) else q) = (q.1, q.2 ++ [a]) :=
        if_pos hq
      simp only [List.map_cons, hhead, hmap, List.map_id, List.sum_cons]
      simp only [List.length_append, List.length_cons, List.length_nil]
      omega
    · have hany' : (t.any fun p => decide (p.1 = a.source)) = true := by
        simpa [hq] using hany
      have hhead : (if q.1 = a.source then (q.1, q.2 ++ [a]) else q) = q := if_neg hq
      simp only [List.map_cons, hhead, List.sum_cons, mapUpd_sum a t hnd'.2 hany']
      omega

/-- One grouping step adds exactly one article to the groups. -/
lemma insertArticle_sum (acc : List (String × List Article)) (a : Article)
    (h : (acc.map Prod.fst).Nodup) :
    ((insertArticle acc a).map (fun p => p.2.length)).sum =
      (acc.map (fun p => p.2.length)).sum + 1 := by
  unfold insertArticle
  split
  case isTrue hany => exact mapUpd_sum a acc h hany
  case isFalse hany => simp

/-- The grouping fold preserves the total article count. -/
lemma groupAux_sum :
    ∀ (rest : List Article) (acc : List (String × List Article)),
      (acc.map Prod.fst).Nodup →
      ((rest.foldl insertArticle acc).map (fun p => p.2.length)).sum =
        (acc.map (fun p => p.2.length)).sum + rest.length
  | [], acc, _ => by simp
  | a :: rest, acc, h => by
    rw [List.foldl_cons,
      groupAux_sum rest (insertArticle acc a) (insertArticle_nodup acc a h),
      insertArticle_sum acc a h]
    simp
    omega

/-- In a list with distinct keys, entries with the same key coincide. -/
lemma key_unique :
    ∀ (l : List (String × List Article)),
      (l.map Prod.fst).Nodup →
      ∀ p ∈ l, ∀ q ∈ l, p.1 = q.1 → p = q
  | [], _, p, hp, _, _, _ => absurd hp (List.not_mem_nil p)
  | x :: t, hnd, p, hp, q, hq, he => by
    have hnd' := List.nodup_cons.mp (by simpa only [List.map_cons] using hnd)
    rcases List.mem_cons.mp hp with rfl | hp' <;> rcases List.mem_cons.mp hq with rfl | hq'
    · rfl
    · exfalso
      have hm := List.mem_map_of_mem Prod.fst hq'
      rw [← he] at hm
      exact hnd'.1 hm
    · exfalso
      have hm := List.mem_map_of_mem Prod.fst hp'
      rw [he] at hm
      exact hnd'.1 hm
    · exact key_unique t hnd'.2 p hp' q hq' he

/-- C4: the rendered sections follow the first-encounter order of the
sources, each section holding exactly that source's articles in their
original relative order; concretely, interleaved sources X, Y, X render
as an X section with both X articles followed by a Y section. -/
theorem report_grouping_stable (articles : List Article) :
    (groupBySource articles).map Prod.fst = sourcesInOrder articles ∧
    (∀ p ∈ groupBySource articles, p.2 = articles.filter (fun x => x.source = p.1)) ∧
    groupBySource [sampleX1, sampleY, sampleX2] =
      [("X", [sampleX1, sampleX2]), ("Y", [sampleY])] ∧
    generate_report "2026-10-12" [sampleX1, sampleY, sampleX2] =
      reportHeader "2026-10-12" 3 ++
        (sectionText ("X", [sampleX1, sampleX2]) ++
          (sectionText ("Y", [sampleY]) ++ "")) := by
  refine ⟨groupBySource_keys articles, (groupBySource_spec articles).2.1, by decide, ?_⟩
  rfl

/-- Witness for C4: the X group of the interleaved scenario is the
filter of the input by source X. -/
theorem report_grouping_stable_witness :
    ("X", [sampleX1, sampleX2]).2 =
      [sampleX1, sampleY, sampleX2].filter
        (fun x => x.source = ("X", [sampleX1, sampleX2]).1) :=
  (report_grouping_stable [sampleX1, sampleY, sampleX2]).2.1
    ("X", [sampleX1, sampleX2]) (by decide)

/-- C9: the header count of the report is the input length, which equals
the sum of the per-section counts, and grouping is a partition: every
input article lies in exactly one section. -/
theorem report_count_partition (articles : List Article) (today : String) :
    ((groupBySource articles).map (fun p => p.2.length)).sum = articles.length ∧
    generate_report today articles =
      reportHeader today articles.length ++
        String.join ((groupBySource articles).map sectionText) ∧
    ∀ a ∈ articles, ∃ p, p ∈ groupBySource articles ∧ a ∈ p.2 ∧
      ∀ q ∈ groupBySource articles, a ∈ q.2 → q = p := by
  obtain ⟨hnd, hcont, hcov⟩ := groupBySource_spec articles
  refine ⟨?_, rfl, ?_⟩
  · simpa using groupAux_sum articles [] (by simp)
  · intro a ha
    obtain ⟨p, hp, hps⟩ := List.mem_map.mp (hcov a ha)
    refine ⟨p, hp, ?_, ?_⟩
    · rw [hcont p hp]
      exact List.mem_filter.mpr ⟨ha, by simp [hps]⟩
    · intro q hq haq
      rw [hcont q hq] at haq
      have hq1 : a.source = q.1 := by simpa using (List.mem_filter.mp haq).2
      exact key_unique _ hnd q hq p hp (by rw [← hq1, hps])

/-- Witness for C9: the Y article of the interleaved scenario lies in
exactly one section. -/
theorem report_count_partition_witness :
    ∃ p, p ∈ groupBySource [sampleX1, sampleY, sampleX2] ∧ sampleY ∈ p.2 ∧
      ∀ q ∈ groupBySource [sampleX1, sampleY, sampleX2], sampleY ∈ q.2 → q = p :=
  (report_count_partition [sampleX1, sampleY, sampleX2] "2026-10-12").2.2
    sampleY (by decide)

/-- C5: when aggregation yields no articles the run writes no file and
reports the no-articles outcome; when it yields articles the run writes
exactly the rendered report at the dated path. -/
theorem run_empty_contract (today ts : String) (cfg : Config)
    (oracle : String → Except String (List Element)) :
    (scrape_all_competitors cfg.competitors cfg.max_articles ts oracle = [] →
      run_daily_scrape today ts cfg oracle =
        { writes := [], outcome := RunOutcome.noArticles }) ∧
    (scrape_all_competitors cfg.competitors cfg.max_articles ts oracle ≠ [] →
      run_daily_scrape today ts cfg oracle =
        { writes := [save_report today (generate_report today
            (scrape_all_competitors cfg.competitors cfg.max_articles ts oracle))],
          outcome := RunOutcome.saved
            (save_report today (generate_report today
              (scrape_all_competitors cfg.competitors cfg.max_articles ts oracle))).1
            (scrape_all_competitors cfg.competitors cfg.max_articles ts oracle).length }) := by
  unfold run_daily_scrape
  constructor
  · intro h
    simp [h]
  · intro h
    simp [h]

/-- Configuration with no competitors, under which aggregation is empty. -/
def emptyCfg : Config :=
  { competitors := [], max_articles := 5, delay_between_requests := 2 }

/-- Configuration with the single competitor Acme. -/
def acmeCfg : Config :=
  { competitors :=
      [ ("Acme",
          { blog_url := "https://acme.example/blog"
            selectors :=
              { title := "h2 a", date := ".date", summary := ".summary" } }) ]
    max_articles := 5
    delay_between_requests := 0 }

/-- Oracle on which every fetch fails. -/
def failingOracle : String → Except String (List Element) :=
  fun _ => Except.error "connection refused"

/-- Oracle yielding one candidate element for every competitor. -/
def acmeOracle : String → Except String (List Element) :=
  fun _ => Except.ok [{ text := "Launch", href := some "/launch" }]

/-- Witness for C5: with no competitors nothing is written and the
no-articles outcome is reported; with one succeeding competitor exactly
the rendered report is written. -/
theorem run_empty_contract_witness :
    run_daily_scrape "2026-10-12" "T" emptyCfg failingOracle =
      { writes := [], outcome := RunOutcome.noArticles } ∧
    run_daily_scrape "2026-10-12" "T" acmeCfg acmeOracle =
      { writes := [save_report "2026-10-12" (generate_report "2026-10-12"
          (scrape_all_competitors acmeCfg.competitors acmeCfg.max_articles "T" acmeOracle))],
        outcome := RunOutcome.saved
          (save_report "2026-10-12" (generate_report "2026-10-12"
            (scrape_all_competitors acmeCfg.competitors acmeCfg.max_articles "T" acmeOracle))).1
          (scrape_all_competitors acmeCfg.competitors acmeCfg.max_articles "T" acmeOracle).length } :=
  ⟨(run_empty_contract "2026-10-12" "T" emptyCfg failingOracle).1 (by decide),
   (run_empty_contract "2026-10-12" "T" acmeCfg acmeOracle).2 (by decide)⟩
